import Mathlib

/-!
Verification of the position-estimation and pattern-matching core of the
`silnaehangbub` indoor-positioning repository.

The Python sources are shallowly embedded:

* machine floats are modelled by `ℝ` (and by `ℚ` where the code only ever
  performs field operations on decimal literals, so that the embedding stays
  executable);
* Python dicts that the code iterates in insertion order are modelled by
  association lists;
* Python's stable `list.sort(key=...)` is modelled by `List.insertionSort`,
  which is a stable sort;
* fallible code (a possible `ZeroDivisionError`) returns `Option`.

Sources embedded: `src/config.py`, `src/position_estimator.py`,
`src/fingerprint_engine.py`, `src/web_track.py`.
-/

namespace IndoorTrack

/-! ### Configuration constants, from src/config.py -/

/-- Constant `TX_POWER = -59` of src/config.py: the 1 m reference RSSI in dBm. -/
def TX_POWER : ℝ := -59

/-- Constant `PATH_LOSS_EXPONENT = 2.5` of src/config.py. -/
def PATH_LOSS_EXPONENT : ℝ := 2.5

/-- Constant `RSSI_MIN = -100` of src/config.py: the minimum RSSI threshold. -/
def RSSI_MIN : ℝ := -100

/-- Constant `MIN_AP_FOR_TRILATERATION = 3` of src/config.py. -/
def MIN_AP_FOR_TRILATERATION : ℕ := 3

/-- Constant `MAX_DISTANCE = 30.0` of src/config.py: maximum recognized range in meters. -/
def MAX_DISTANCE : ℝ := 30

/-- The bounding region record, mirroring the `MAP_BOUNDS` dict of src/config.py. -/
structure Bounds where
  min_x : ℝ
  max_x : ℝ
  min_y : ℝ
  max_y : ℝ

/-- Constant `MAP_BOUNDS = {min_x: -2, max_x: 75.0, min_y: -3, max_y: 22.0}` of
src/config.py (`MAP_WIDTH = 75.0`, `MAP_HEIGHT = 22.0`). -/
def MAP_BOUNDS : Bounds := ⟨-2, 75, -3, 22⟩

/-- The `AP_POSITIONS` table of src/config.py: name of each Aruba AP together
with its 2-D coordinate, in dict insertion order. -/
def AP_POSITIONS : List (String × ℝ × ℝ) :=
  [("AP-12", (5.0, 3.5)),
   ("AP-11", (25.3, 3.5)),
   ("AP-XX", (38.2, 3.5)),
   ("AP-09", (47.3, 3.5)),
   ("AP-07", (58.7, 3.5)),
   ("AP-13", (67.0, 16.5)),
   ("AP-7413", (9.1, 3.1))]

/-- Membership test `ap_name in AP_POSITIONS` / indexing `AP_POSITIONS[ap_name]`. -/
def lookupAP (name : String) : Option (ℝ × ℝ) :=
  (AP_POSITIONS.find? (fun p => p.1 = name)).map Prod.snd

/-! ### Distance model: `rssi_to_distance` of src/config.py -/

/-- Function `rssi_to_distance` of src/config.py (lines 175-184):

    if rssi >= 0 or rssi < RSSI_MIN:
        return MAX_DISTANCE
    distance = 10 ** ((TX_POWER - rssi) / (10 * PATH_LOSS_EXPONENT))
    return min(distance, MAX_DISTANCE)
-/
noncomputable def rssi_to_distance (rssi : ℝ) : ℝ :=
  if 0 ≤ rssi ∨ rssi < RSSI_MIN then MAX_DISTANCE
  else min ((10 : ℝ) ^ ((TX_POWER - rssi) / (10 * PATH_LOSS_EXPONENT))) MAX_DISTANCE

/-- Helper: the path-loss curve evaluated at RSSI `-100` exceeds the cap, so the
`min` clamp makes the model return `MAX_DISTANCE` there too. -/
theorem thirty_le_rpow_at_floor : (30 : ℝ) ≤ (10 : ℝ) ^ ((41 : ℝ) / 25) := by
  have h32 : (10 : ℝ) ^ ((3 : ℝ) / 2) ≤ (10 : ℝ) ^ ((41 : ℝ) / 25) :=
    Real.rpow_le_rpow_of_exponent_le (by norm_num) (by norm_num)
  have hy : ((10 : ℝ) ^ ((3 : ℝ) / 2)) ^ (2 : ℕ) = (1000 : ℝ) := by
    rw [← Real.rpow_natCast ((10 : ℝ) ^ ((3 : ℝ) / 2)) 2, ← Real.rpow_mul (by norm_num)]
    norm_num
  have hpos : (0 : ℝ) < (10 : ℝ) ^ ((3 : ℝ) / 2) :=
    Real.rpow_pos_of_pos (by norm_num) _
  have h30 : (30 : ℝ) ≤ (10 : ℝ) ^ ((3 : ℝ) / 2) := by
    by_contra hlt
    push_neg at hlt
    nlinarith
  linarith

/-- C5: for every RSSI value that is greater than or equal to 0 or at/below the
configured minimum floor (`RSSI_MIN = -100`), the distance model returns exactly
the configured maximum distance (`MAX_DISTANCE = 30.0`).  At RSSI values
strictly below the floor this is the early-return branch; at exactly `-100` the
path-loss curve evaluates above the cap and the final `min` clamp yields the
maximum as well. -/
theorem rssi_to_distance_edge (rssi : ℝ) (h : 0 ≤ rssi ∨ rssi ≤ RSSI_MIN) :
    rssi_to_distance rssi = 30 := by
  unfold rssi_to_distance
  by_cases h0 : 0 ≤ rssi ∨ rssi < RSSI_MIN
  · rw [if_pos h0]; rfl
  · rw [if_neg h0]
    push_neg at h0
    obtain ⟨h1, h2⟩ := h0
    have heq : rssi = -100 := by
      rcases h with h | h
      · exact absurd h (not_le.mpr h1)
      · unfold RSSI_MIN at h h2; linarith
    subst heq
    have heq41 : (TX_POWER - (-100 : ℝ)) / (10 * PATH_LOSS_EXPONENT) = (41 : ℝ) / 25 := by
      unfold TX_POWER PATH_LOSS_EXPONENT; norm_num
    unfold MAX_DISTANCE
    rw [heq41]
    exact min_eq_right thirty_le_rpow_at_floor

/-- Witness for C5 at the boundary input `rssi = -100`. -/
theorem rssi_to_distance_edge_witness :
    ((0 : ℝ) ≤ -100 ∨ (-100 : ℝ) ≤ RSSI_MIN) ∧ rssi_to_distance (-100) = 30 :=
  ⟨Or.inr (by norm_num [RSSI_MIN]), rssi_to_distance_edge (-100) (Or.inr (by norm_num [RSSI_MIN]))⟩

/-- C6: the distance model is monotonically non-increasing as RSSI increases on
the open interval strictly between the floor and 0: a stronger signal never
yields a larger modeled distance. -/
theorem rssi_to_distance_antitone (r1 r2 : ℝ) (hfloor : RSSI_MIN < r1) (h12 : r1 < r2)
    (h0 : r2 < 0) : rssi_to_distance r2 ≤ rssi_to_distance r1 := by
  unfold rssi_to_distance RSSI_MIN at *
  rw [if_neg (by push_neg; constructor <;> [linarith; linarith]),
    if_neg (by push_neg; constructor <;> [linarith; linarith])]
  refine min_le_min ?_ le_rfl
  apply Real.rpow_le_rpow_of_exponent_le (by norm_num)
  unfold TX_POWER PATH_LOSS_EXPONENT
  gcongr

/-- Witness for C6 at the concrete pair `r1 = -60 < r2 = -50`. -/
theorem rssi_to_distance_antitone_witness :
    RSSI_MIN < (-60 : ℝ) ∧ (-60 : ℝ) < -50 ∧ (-50 : ℝ) < 0 ∧
      rssi_to_distance (-50) ≤ rssi_to_distance (-60) :=
  ⟨by norm_num [RSSI_MIN], by norm_num, by norm_num,
    rssi_to_distance_antitone (-60) (-50) (by norm_num [RSSI_MIN]) (by norm_num) (by norm_num)⟩

/-- C7: the distance model never returns a distance below a fixed positive
sub-meter floor: the constant `10 ^ (-59/25)` (the curve's value as RSSI tends
to 0) is positive, below one meter, and bounds every output from below; in
particular the model never returns a negative or zero distance. -/
theorem rssi_to_distance_pos_floor :
    ∃ c : ℝ, 0 < c ∧ c < 1 ∧ ∀ rssi : ℝ, c ≤ rssi_to_distance rssi := by
  refine ⟨(10 : ℝ) ^ (-(59 : ℝ) / 25), Real.rpow_pos_of_pos (by norm_num) _,
    Real.rpow_lt_one_of_one_lt_of_neg (by norm_num) (by norm_num), fun rssi => ?_⟩
  have hc1 : (10 : ℝ) ^ (-(59 : ℝ) / 25) < 1 :=
    Real.rpow_lt_one_of_one_lt_of_neg (by norm_num) (by norm_num)
  unfold rssi_to_distance
  by_cases h0 : 0 ≤ rssi ∨ rssi < RSSI_MIN
  · rw [if_pos h0]; unfold MAX_DISTANCE; linarith
  · rw [if_neg h0]
    push_neg at h0
    refine le_min ?_ (by unfold MAX_DISTANCE; linarith)
    apply Real.rpow_le_rpow_of_exponent_le (by norm_num)
    unfold TX_POWER PATH_LOSS_EXPONENT
    have hr0 : rssi < 0 := h0.1
    rw [show (-(59 : ℝ) / 25) = (-59 : ℝ) / (10 * 2.5) by norm_num]
    gcongr
    linarith

/-! ### Geometric estimator, from src/position_estimator.py -/

/-- State of a `PositionEstimator` object (src/position_estimator.py): the
configured method string, the cached last known position and the position
history (entries are `(x, y, timestamp)`). -/
structure PositionEstimator where
  method : String
  last_position : Option (ℝ × ℝ)
  position_history : List (ℝ × ℝ × ℝ)

/-- A fresh `PositionEstimator(method)`: no cached position, empty history. -/
def PositionEstimator.init (method : String) : PositionEstimator := ⟨method, none, []⟩

/-- Indexing `AP_POSITIONS[ap_name]`; inside `estimate` every surviving AP name
has been filtered by membership in the table, so the default is never used. -/
def apPosD (name : String) : ℝ × ℝ := (lookupAP name).getD (0, 0)

open Classical in
/-- The filter at the head of `PositionEstimator.estimate`
(src/position_estimator.py lines 45-51): keep entries with `rssi > -100` whose
AP name is a key of `AP_POSITIONS` and whose modeled distance is strictly below
`MAX_DISTANCE`; the value kept is the modeled distance. -/
noncomputable def computeDistances (reading : List (String × ℝ)) : List (String × ℝ) :=
  reading.filterMap fun e =>
    if e.2 > -100 ∧ (lookupAP e.1).isSome then
      if rssi_to_distance e.2 < MAX_DISTANCE then some (e.1, rssi_to_distance e.2) else none
    else none

open Classical in
/-- Method `_weighted_centroid` (src/position_estimator.py lines 77-98): weight
each AP with positive distance by the inverse squared distance and average the
AP coordinates; `None` when the total weight is zero. -/
noncomputable def weighted_centroid (distances : List (String × ℝ)) : Option (ℝ × ℝ) :=
  let acc := distances.foldl
    (fun acc e =>
      if e.2 > 0 then
        let w := 1 / e.2 ^ 2
        let p := apPosD e.1
        (acc.1 + p.1 * w, acc.2.1 + p.2 * w, acc.2.2 + w)
      else acc)
    ((0 : ℝ), (0 : ℝ), (0 : ℝ))
  if acc.2.2 > 0 then some (acc.1 / acc.2.2, acc.2.1 / acc.2.2) else none

open Classical in
/-- Method `_trilateration` (src/position_estimator.py lines 100-145): pick the
three APs with smallest distances (Python's `sorted` is a stable sort, modelled
by `List.insertionSort`), build the pairwise-subtracted 2x2 linear system, fall
back to the weighted centroid when fewer than three APs remain or the matrix is
singular, and otherwise return the exact solution of the system (the
mathematical content of `np.linalg.solve`). -/
noncomputable def trilateration (distances : List (String × ℝ)) : Option (ℝ × ℝ) :=
  let sorted_aps := (List.insertionSort (fun a b => a.2 ≤ b.2) distances).take 3
  match sorted_aps with
  | (n1, r1) :: (n2, r2) :: (n3, r3) :: _ =>
    let x1 := (apPosD n1).1; let y1 := (apPosD n1).2
    let x2 := (apPosD n2).1; let y2 := (apPosD n2).2
    let x3 := (apPosD n3).1; let y3 := (apPosD n3).2
    let a11 := 2 * (x2 - x1); let a12 := 2 * (y2 - y1)
    let a21 := 2 * (x3 - x1); let a22 := 2 * (y3 - y1)
    let b1 := r1 ^ 2 - r2 ^ 2 - x1 ^ 2 + x2 ^ 2 - y1 ^ 2 + y2 ^ 2
    let b2 := r1 ^ 2 - r3 ^ 2 - x1 ^ 2 + x3 ^ 2 - y1 ^ 2 + y3 ^ 2
    let det := a11 * a22 - a12 * a21
    if det = 0 then weighted_centroid distances
    else some ((b1 * a22 - b2 * a12) / det, (a11 * b2 - a21 * b1) / det)
  | _ => weighted_centroid distances

/-- Objective of `_least_squares` (src/position_estimator.py lines 152-159):
sum of squared residuals between geometric and measured distances. -/
noncomputable def least_squares_objective (distances : List (String × ℝ)) (pos : ℝ × ℝ) : ℝ :=
  (distances.map fun e =>
    (Real.sqrt ((pos.1 - (apPosD e.1).1) ^ 2 + (pos.2 - (apPosD e.1).2) ^ 2) - e.2) ^ 2).sum

/-- Method `_least_squares` (src/position_estimator.py lines 147-169).  The
derivative-free minimizer itself (`scipy.optimize.minimize`, Nelder-Mead) is an
external library; the embedding takes it as an explicit parameter `minimizeNM`
(objective and initial guess to minimizing point), so every theorem below holds
for an arbitrary deterministic minimizer. -/
noncomputable def least_squares (minimizeNM : ((ℝ × ℝ) → ℝ) → (ℝ × ℝ) → ℝ × ℝ)
    (distances : List (String × ℝ)) : ℝ × ℝ :=
  let initial := (weighted_centroid distances).getD (MAP_BOUNDS.max_x / 2, MAP_BOUNDS.max_y / 2)
  minimizeNM (least_squares_objective distances) initial

/-- Final lines 68-75 of `PositionEstimator.estimate`: when a position was
computed (`if position:`), clamp both coordinates into `MAP_BOUNDS` and cache
the clamped position as `last_position`; otherwise return `None` untouched. -/
noncomputable def clampAndCache (e : PositionEstimator) :
    Option (ℝ × ℝ) → Option (ℝ × ℝ) × PositionEstimator
  | none => (none, e)
  | some p =>
    let x := max MAP_BOUNDS.min_x (min p.1 MAP_BOUNDS.max_x)
    let y := max MAP_BOUNDS.min_y (min p.2 MAP_BOUNDS.max_y)
    (some (x, y), { e with last_position := some (x, y) })

open Classical in
/-- Body of `PositionEstimator.estimate` after the distances dict has been
computed (src/position_estimator.py lines 53-75): insufficient-beacon early
return of the cached position, method dispatch by string (unknown strings fall
back to the weighted centroid), then clamping and caching. -/
noncomputable def estimateFromDistances (minimizeNM : ((ℝ × ℝ) → ℝ) → (ℝ × ℝ) → ℝ × ℝ)
    (e : PositionEstimator) (distances : List (String × ℝ)) :
    Option (ℝ × ℝ) × PositionEstimator :=
  if distances.length < MIN_AP_FOR_TRILATERATION then (e.last_position, e)
  else
    let position :=
      if e.method = "weighted_centroid" then weighted_centroid distances
      else if e.method = "trilateration" then trilateration distances
      else if e.method = "least_squares" then some (least_squares minimizeNM distances)
      else weighted_centroid distances
    clampAndCache e position

/-- Method `PositionEstimator.estimate` (src/position_estimator.py lines 35-75)
as a state transformer: the reading is the `{AP name: RSSI}` dict in insertion
order; the result is the returned `Optional[Tuple[float, float]]` together with
the updated object. -/
noncomputable def estimate (minimizeNM : ((ℝ × ℝ) → ℝ) → (ℝ × ℝ) → ℝ × ℝ)
    (e : PositionEstimator) (reading : List (String × ℝ)) :
    Option (ℝ × ℝ) × PositionEstimator :=
  estimateFromDistances minimizeNM e (computeDistances reading)

/-- Membership of a position in the configured bounding region `MAP_BOUNDS`. -/
def inBounds (p : ℝ × ℝ) : Prop :=
  MAP_BOUNDS.min_x ≤ p.1 ∧ p.1 ≤ MAP_BOUNDS.max_x ∧
    MAP_BOUNDS.min_y ≤ p.2 ∧ p.2 ≤ MAP_BOUNDS.max_y

/-- Clamping `x = max(min_x, min(px, max_x))`, `y = max(min_y, min(py, max_y))`
always lands inside the bounding region. -/
theorem inBounds_clamp (px py : ℝ) :
    inBounds (max MAP_BOUNDS.min_x (min px MAP_BOUNDS.max_x),
      max MAP_BOUNDS.min_y (min py MAP_BOUNDS.max_y)) := by
  unfold inBounds MAP_BOUNDS
  refine ⟨le_max_left _ _, ?_, le_max_left _ _, ?_⟩
  · exact max_le (by norm_num) (min_le_right _ _)
  · exact max_le (by norm_num) (min_le_right _ _)

/-- C1 (amended): every position estimate returned by
`PositionEstimator.estimate`, and the cached last-known position it leaves
behind, lies within the configured bounding region `MAP_BOUNDS` (coordinates
are clamped, never rejected), assuming the cached position already satisfied
the invariant (it does initially, being `None`).  The fusion layer of
src/web_track.py is NOT covered: its reported position is not clamped, see the
counterexample. -/
theorem estimate_in_bounds (minimizeNM : ((ℝ × ℝ) → ℝ) → (ℝ × ℝ) → ℝ × ℝ)
    (e : PositionEstimator) (reading : List (String × ℝ))
    (hinv : ∀ p ∈ e.last_position, inBounds p) :
    (∀ p ∈ (estimate minimizeNM e reading).1, inBounds p) ∧
      (∀ p ∈ (estimate minimizeNM e reading).2.last_position, inBounds p) := by
  have hclamp : ∀ o : Option (ℝ × ℝ),
      (∀ p ∈ (clampAndCache e o).1, inBounds p) ∧
        (∀ p ∈ (clampAndCache e o).2.last_position, inBounds p) := by
    intro o
    cases o with
    | none => exact ⟨by simp [clampAndCache], by simpa [clampAndCache] using hinv⟩
    | some p =>
      constructor
      · intro q hq
        simp only [clampAndCache, Option.mem_def, Option.some.injEq] at hq
        subst hq
        exact inBounds_clamp p.1 p.2
      · intro q hq
        simp only [clampAndCache, Option.mem_def, Option.some.injEq] at hq
        subst hq
        exact inBounds_clamp p.1 p.2
  unfold estimate estimateFromDistances
  split
  · exact ⟨hinv, hinv⟩
  · exact hclamp _

/-- Witness for the amended C1: a fresh estimator (whose cached position is
`None`) trivially satisfies the cache invariant, on any concrete reading. -/
theorem estimate_in_bounds_witness :
    (∀ p ∈ (PositionEstimator.init "weighted_centroid").last_position, inBounds p) ∧
      (∀ p ∈ (estimate (fun _ q => q) (PositionEstimator.init "weighted_centroid")
        [("AP-12", (-60 : ℝ)), ("AP-11", -60), ("AP-XX", -60)]).1, inBounds p) :=
  ⟨by simp [PositionEstimator.init],
    (estimate_in_bounds (fun _ q => q) (PositionEstimator.init "weighted_centroid")
      [("AP-12", (-60 : ℝ)), ("AP-11", -60), ("AP-XX", -60)]
      (by simp [PositionEstimator.init])).1⟩

/-- C2: whenever fewer than `MIN_AP_FOR_TRILATERATION = 3` beacons survive the
validity filter, `estimate` returns the previously cached last-known position
and leaves the whole estimator state (in particular the cache) unmodified; on a
first call, whose cache is `None`, the returned position is therefore `None`.
The branch is an ordinary return, never an exception (the embedded `estimate`
is a total function). -/
theorem estimate_insufficient (minimizeNM : ((ℝ × ℝ) → ℝ) → (ℝ × ℝ) → ℝ × ℝ)
    (e : PositionEstimator) (reading : List (String × ℝ))
    (h : (computeDistances reading).length < MIN_AP_FOR_TRILATERATION) :
    estimate minimizeNM e reading = (e.last_position, e) ∧
      (e.last_position = none → (estimate minimizeNM e reading).1 = none) := by
  have hmain : estimate minimizeNM e reading = (e.last_position, e) := by
    unfold estimate estimateFromDistances
    rw [if_pos h]
  exact ⟨hmain, fun hnone => by rw [hmain, hnone]⟩

/-- Witness for C2: a first call (fresh estimator, cache `None`) on an empty
reading returns `None` and leaves the state unchanged. -/
theorem estimate_insufficient_witness :
    (computeDistances []).length < MIN_AP_FOR_TRILATERATION ∧
      estimate (fun _ q => q) (PositionEstimator.init "weighted_centroid") [] =
        (none, PositionEstimator.init "weighted_centroid") := by
  have h : (computeDistances []).length < MIN_AP_FOR_TRILATERATION := by
    simp [computeDistances, MIN_AP_FOR_TRILATERATION]
  refine ⟨h, ?_⟩
  have := (estimate_insufficient (fun _ q => q)
    (PositionEstimator.init "weighted_centroid") [] h).1
  simpa [PositionEstimator.init] using this

/-- C8: an entry that the validity filter of `estimate` rejects, either because
its RSSI is at or below `-100` or because its identifier is not a key of the
beacon table, has no influence: adding it to a reading (whose keys do not
already contain it) changes neither the returned position nor the updated
estimator state. -/
theorem estimate_filtered_entry_irrelevant (minimizeNM : ((ℝ × ℝ) → ℝ) → (ℝ × ℝ) → ℝ × ℝ)
    (e : PositionEstimator) (R : List (String × ℝ)) (ap : String) (rssi : ℝ)
    (hfilt : rssi ≤ -100 ∨ lookupAP ap = none) (_hfresh : ap ∉ R.map Prod.fst) :
    estimate minimizeNM e (R ++ [(ap, rssi)]) = estimate minimizeNM e R := by
  unfold estimate
  have hdist : computeDistances (R ++ [(ap, rssi)]) = computeDistances R := by
    unfold computeDistances
    rw [List.filterMap_append]
    have hcond : ¬((ap, rssi).2 > -100 ∧ (lookupAP (ap, rssi).1).isSome) := by
      rcases hfilt with h | h
      · exact fun hc => absurd hc.1 (not_lt.mpr h)
      · exact fun hc => by rw [h] at hc; exact absurd hc.2 (by simp)
    simp [List.filterMap_cons, hcond]
  rw [hdist]

/-- Witness for C8 at a concrete reading: both an at-floor RSSI entry and an
unknown-identifier entry are ignored by `estimate`. -/
theorem estimate_filtered_entry_irrelevant_witness :
    ((-200 : ℝ) ≤ -100 ∨ lookupAP "AP-12" = none) ∧
      ("AP-12" ∉ ([("AP-11", (-60 : ℝ))].map Prod.fst)) ∧
      estimate (fun _ q => q) (PositionEstimator.init "weighted_centroid")
          ([("AP-11", (-60 : ℝ))] ++ [("AP-12", -200)]) =
        estimate (fun _ q => q) (PositionEstimator.init "weighted_centroid")
          [("AP-11", (-60 : ℝ))] :=
  ⟨Or.inl (by norm_num), by simp,
    estimate_filtered_entry_irrelevant (fun _ q => q)
      (PositionEstimator.init "weighted_centroid") [("AP-11", (-60 : ℝ))] "AP-12" (-200)
      (Or.inl (by norm_num)) (by simp)⟩

/-! ### Fingerprint engine, from src/fingerprint_engine.py -/

/-- Function `euclidean_distance` (src/fingerprint_engine.py lines 94-106):
Euclidean distance over the overlapping part of the two patterns (`zip`
truncates to the shorter length, exactly like the `min_len` loop of the
source); an empty pattern gives `float('inf')`, modelled by the top element of
`WithTop ℝ`.  Pattern entries are numbers, modelled by `ℚ`. -/
noncomputable def euclidean_distance (pattern1 pattern2 : List ℚ) : WithTop ℝ :=
  if pattern1 = [] ∨ pattern2 = [] then ⊤
  else
    ((Real.sqrt (((pattern1.zip pattern2).map
      (fun ab => ((ab.1 : ℝ) - (ab.2 : ℝ)) ^ 2)).sum) : ℝ) : WithTop ℝ)

/-- Function `cosine_similarity` (src/fingerprint_engine.py lines 108-122):
dot product over the overlapping part, normalized by the magnitudes of the two
truncated vectors; 0 on an empty pattern or a zero-magnitude vector. -/
noncomputable def cosine_similarity (pattern1 pattern2 : List ℚ) : ℝ :=
  if pattern1 = [] ∨ pattern2 = [] then 0
  else
    let min_len := min pattern1.length pattern2.length
    let dot_product := ((pattern1.zip pattern2).map (fun ab => (ab.1 : ℝ) * (ab.2 : ℝ))).sum
    let norm1 := Real.sqrt (((pattern1.take min_len).map (fun x => (x : ℝ) ^ 2)).sum)
    let norm2 := Real.sqrt (((pattern2.take min_len).map (fun x => (x : ℝ) ^ 2)).sum)
    if norm1 = 0 ∨ norm2 = 0 then 0 else dot_product / (norm1 * norm2)

/-- One entry of the `distances` list built by `estimate_location_knn`
(src/fingerprint_engine.py lines 133-143). -/
structure Candidate where
  location : String
  distance : WithTop ℝ
  similarity : ℝ
  pattern : List ℚ

/-- The sort key order of `distances.sort(key=lambda x: x["distance"])`. -/
def candLE (a b : Candidate) : Prop := a.distance ≤ b.distance

noncomputable instance : DecidableRel candLE := fun _ _ => Classical.propDecidable _

instance : IsTotal Candidate candLE := ⟨fun a b => le_total a.distance b.distance⟩

instance : IsTrans Candidate candLE := ⟨fun _ _ _ => le_trans⟩

/-- The confidence step function of `estimate_location_knn`
(src/fingerprint_engine.py lines 157-165). -/
noncomputable def knn_confidence (d : WithTop ℝ) : ℝ :=
  if d < ((5 : ℝ) : WithTop ℝ) then 0.95
  else if d < ((10 : ℝ) : WithTop ℝ) then 0.8
  else if d < ((20 : ℝ) : WithTop ℝ) then 0.6
  else 0.3

/-- Function `estimate_location_knn` (src/fingerprint_engine.py lines 124-167).
The fingerprint store is the `fingerprint_db` dict in insertion order, each
record reduced to its `pattern` field (the only one the function reads).
Python's stable `list.sort` is modelled by the stable `List.insertionSort`. -/
noncomputable def estimate_location_knn (db : List (String × List ℚ))
    (current_pattern : List ℚ) (k : ℕ) : Option String × ℝ × List Candidate :=
  if db = [] ∨ current_pattern = [] then (none, 0, [])
  else
    let distances := db.map fun entry =>
      Candidate.mk entry.1 (euclidean_distance current_pattern entry.2)
        (cosine_similarity current_pattern entry.2) entry.2
    let sorted := List.insertionSort candLE distances
    let top_k := sorted.take k
    match top_k with
    | [] => (none, 0, [])
    | best :: _ => (some best.location, knn_confidence best.distance, top_k)

/-- Distances are never negative: each one is infinity or a square root. -/
theorem euclidean_distance_nonneg (p q : List ℚ) : 0 ≤ euclidean_distance p q := by
  unfold euclidean_distance
  split
  · exact le_top
  · rw [← WithTop.coe_zero, WithTop.coe_le_coe]
    exact Real.sqrt_nonneg _

/-- A non-empty pattern is at Euclidean distance 0 from itself. -/
theorem euclidean_distance_self (p : List ℚ) (hne : p ≠ []) : euclidean_distance p p = 0 := by
  have hsum : ∀ l : List ℚ, ((l.zip l).map (fun ab => ((ab.1 : ℝ) - (ab.2 : ℝ)) ^ 2)).sum = 0 := by
    intro l
    induction l with
    | nil => simp
    | cons a t ih => simpa using ih
  unfold euclidean_distance
  rw [if_neg (by simp [hne]), hsum p, Real.sqrt_zero, WithTop.coe_zero]

/-- C3 (amended): querying the pattern matcher with the stored signature of a
label `L` returns `L` as the best label, with Euclidean distance 0 to its
record and confidence 0.95 (the `distance < 5` step), provided the stored
signature is non-empty and `L`'s record is the only one in the store at
Euclidean distance 0 from the query (otherwise an earlier tying record, or no
label at all for an empty signature, is returned — see the counterexample). -/
theorem knn_stored_signature (db : List (String × List ℚ)) (L : String) (pat : List ℚ)
    (n : ℕ) (hmem : (L, pat) ∈ db) (hne : pat ≠ [])
    (huniq : ∀ entry ∈ db, euclidean_distance pat entry.2 = 0 → entry = (L, pat)) :
    (estimate_location_knn db pat (n + 1)).1 = some L ∧
      (estimate_location_knn db pat (n + 1)).2.1 = 0.95 ∧
      euclidean_distance pat pat = 0 := by
  have hdbne : db ≠ [] := fun h => by subst h; simp at hmem
  have hdist0 : euclidean_distance pat pat = 0 := euclidean_distance_self pat hne
  unfold estimate_location_knn
  rw [if_neg (by simp [hdbne, hne])]
  dsimp only
  set f : String × List ℚ → Candidate := fun entry =>
    Candidate.mk entry.1 (euclidean_distance pat entry.2)
      (cosine_similarity pat entry.2) entry.2 with hf
  have hcne : db.map f ≠ [] := by
    intro h
    exact hdbne (List.map_eq_nil_iff.mp h)
  have hsne : List.insertionSort candLE (db.map f) ≠ [] := by
    intro h
    have hperm := List.perm_insertionSort candLE (db.map f)
    rw [h] at hperm
    exact hcne hperm.nil_eq.symm
  obtain ⟨best, rest, hcons⟩ := List.exists_cons_of_ne_nil hsne
  have hbest_mem : best ∈ db.map f := by
    have : best ∈ List.insertionSort candLE (db.map f) := by
      rw [hcons]; exact List.mem_cons_self _ _
    exact (List.mem_insertionSort candLE).mp this
  obtain ⟨entry, hentry, hbe⟩ := List.mem_map.mp hbest_mem
  have hLc_mem : f (L, pat) ∈ db.map f := List.mem_map_of_mem f hmem
  have hsorted : List.Sorted candLE (best :: rest) :=
    hcons ▸ List.sorted_insertionSort candLE (db.map f)
  have hLc_in : f (L, pat) ∈ best :: rest :=
    hcons ▸ (List.mem_insertionSort candLE).mpr hLc_mem
  have hble : candLE best (f (L, pat)) := by
    rcases List.mem_cons.mp hLc_in with h | h
    · rw [← h]; exact le_refl _
    · exact (List.sorted_cons.mp hsorted).1 _ h
  have hbd0 : best.distance = 0 := by
    have h1 : best.distance ≤ 0 := by
      have : (f (L, pat)).distance = 0 := by rw [hf]; exact hdist0
      exact this ▸ hble
    have h2 : 0 ≤ best.distance := by
      rw [← hbe, hf]
      exact euclidean_distance_nonneg pat entry.2
    exact le_antisymm h1 h2
  have hloc : best.location = L := by
    have hed : euclidean_distance pat entry.2 = 0 := by
      have : (f entry).distance = euclidean_distance pat entry.2 := rfl
      rw [← hbe, hf] at hbd0
      exact hbd0
    have := huniq entry hentry hed
    rw [← hbe, hf, this]
  rw [hcons, List.take_succ_cons]
  dsimp only
  refine ⟨by rw [hloc], ?_, hdist0⟩
  rw [hbd0]
  unfold knn_confidence
  rw [if_pos]
  rw [← WithTop.coe_zero]
  exact WithTop.coe_lt_coe.mpr (by norm_num)

/-- Counterexample to C3 as stated: first, in the store
`{"A": [-50], "L": [-50, -60]}` the query with `L`'s stored signature
`[-50, -60]` returns `"A"` (distances are compared over the overlapping part
only, so `"A"` ties at distance 0 and, coming earlier in the store, is kept
first by the stable sort); second, a stored empty signature is returned as no
match (`None`) rather than its own label. -/
theorem knn_stored_signature_cex :
    (estimate_location_knn [("A", [-50]), ("L", [-50, -60])] [-50, -60] 3).1 = some "A" ∧
      (estimate_location_knn [("L", [])] ([] : List ℚ) 3).1 = none := by
  constructor
  · unfold estimate_location_knn
    rw [if_neg (by simp)]
    dsimp only
    have hA : euclidean_distance [-50, -60] [-50] = ((Real.sqrt 0 : ℝ) : WithTop ℝ) := by
      unfold euclidean_distance
      rw [if_neg (by simp)]
      norm_num
    have hL : euclidean_distance [-50, -60] [-50, -60] = ((Real.sqrt 0 : ℝ) : WithTop ℝ) := by
      unfold euclidean_distance
      rw [if_neg (by simp)]
      norm_num
    simp only [List.map_cons, List.map_nil, List.insertionSort, List.orderedInsert, hA, hL, candLE]
    rw [if_pos le_rfl]
    simp
  · unfold estimate_location_knn
    rw [if_pos (by simp)]

/-- Witness for the amended C3: a one-record store queried with its own stored
signature returns that label with confidence 0.95. -/
theorem knn_stored_signature_witness :
    (estimate_location_knn [("roomA", [(-50 : ℚ), -60])] [(-50 : ℚ), -60] 3).1 = some "roomA" ∧
      (estimate_location_knn [("roomA", [(-50 : ℚ), -60])] [(-50 : ℚ), -60] 3).2.1 = 0.95 := by
  have h := knn_stored_signature [("roomA", [(-50 : ℚ), -60])] "roomA" [(-50 : ℚ), -60] 2
    (by simp) (by simp) (fun entry hentry _ => by simpa using hentry)
  exact ⟨h.1, h.2.1⟩

/-! ### Web tracking layer, from src/web_track.py -/

/-- The `CALIBRATION` table of src/web_track.py (lines 49-59): room label,
measured RSSI, 1-D corridor position in meters.  Note the consecutive repeated
RSSI values `-65` and `-68`. -/
def CALIBRATION : List (String × ℚ × ℚ) :=
  [("7413", (-44, 0.0)),
   ("7418", (-54, 8.0)),
   ("7419", (-60, 12.0)),
   ("7420", (-65, 18.0)),
   ("7422", (-65, 28.0)),
   ("7423", (-68, 38.0)),
   ("7424", (-68, 48.0)),
   ("7404", (-69, 55.0)),
   ("7429", (-74, 65.0))]

/-- The parallel `rssi_list` / `pos_list` pairs read from `CALIBRATION` at the
head of `rssi_to_position`. -/
def calibPairs : List (ℚ × ℚ) := CALIBRATION.map fun c => (c.2.1, c.2.2)

/-- The interpolation loop of `rssi_to_position` (src/web_track.py lines
118-121): scan consecutive calibration pairs, return on the first bracketing
segment; Python would raise `ZeroDivisionError` on a zero-width segment, which
the embedding models as `none`; falling off the loop is the final `return 0`. -/
def interpLoop : List (ℚ × ℚ) → ℚ → Option ℚ
  | (r1, p1) :: (r2, p2) :: rest, rssi =>
    if r1 ≥ rssi ∧ rssi ≥ r2 then
      if r1 - r2 = 0 then none
      else some (p1 + (r1 - rssi) / (r1 - r2) * (p2 - p1))
    else interpLoop ((r2, p2) :: rest) rssi
  | _, _ => some 0

/-- Function `rssi_to_position` (src/web_track.py lines 108-122): clamp to the
first calibration position above the strongest calibrated RSSI, extrapolate
linearly (1 m per dBm) below the weakest calibrated RSSI, and otherwise
interpolate within the first bracketing segment. -/
def rssi_to_position (rssi : ℚ) : Option ℚ :=
  if rssi ≥ (calibPairs.headD (0, 0)).1 then some (calibPairs.headD (0, 0)).2
  else if rssi ≤ (calibPairs.getLastD (0, 0)).1 then
    some ((calibPairs.getLastD (0, 0)).2 + ((calibPairs.getLastD (0, 0)).1 - rssi) * 1)
  else interpLoop calibPairs rssi

/-- The `ROOM_POSITIONS` dict of src/web_track.py (lines 63-82), in insertion
order: room label to 1-D corridor position. -/
def ROOM_POSITIONS : List (String × ℚ) :=
  [("7414", -5.0), ("7413", 0.0), ("STAIR", 5.0), ("EV", 10.0),
   ("7412", 15.0), ("7411", 20.0), ("7410", 25.0), ("7409", 30.0),
   ("7408", 35.0), ("7407", 40.0), ("7406", 45.0), ("7405", 50.0),
   ("7404", 55.0), ("7403", 60.0), ("7401", 65.0)]

/-- Lookup `ROOM_POSITIONS.get(label, default)`. -/
def lookupRoom (room : String) : Option ℚ :=
  (ROOM_POSITIONS.find? (fun p => p.1 = room)).map Prod.snd

/-- Function `get_nearest_room` of src/web_track.py (lines 124-133): scan the
rooms in insertion order keeping the strictly smallest distance; `none` models
the initial `float('inf')` minimum, `"7413"` the initial nearest room. -/
def get_nearest_room (pos : ℚ) : String :=
  (ROOM_POSITIONS.foldl
    (fun acc rp =>
      let dist := |pos - rp.2|
      match acc.2 with
      | none => (rp.1, some dist)
      | some m => if dist < m then (rp.1, some dist) else acc)
    ("7413", (none : Option ℚ))).1

/-- Constant `RSSI_BUFFER_SIZE = 10` of src/web_track.py. -/
def RSSI_BUFFER_SIZE : ℕ := 10

/-- Constant `POSITION_BUFFER_SIZE = 8` of src/web_track.py. -/
def POSITION_BUFFER_SIZE : ℕ := 8

/-- Constant `DIRECTION_THRESHOLD = 5.0` of src/web_track.py. -/
def DIRECTION_THRESHOLD : ℚ := 5

/-- Constant `MIN_POSITION_CHANGE = 1.0` of src/web_track.py. -/
def MIN_POSITION_CHANGE : ℚ := 1

/-- Python's banker's rounding (`round`) to an integer, on rationals: ties go
to the even integer. -/
def pyRound (q : ℚ) : ℤ :=
  if q - ⌊q⌋ < 1 / 2 then ⌊q⌋
  else if 1 / 2 < q - ⌊q⌋ then ⌊q⌋ + 1
  else if ⌊q⌋ % 2 = 0 then ⌊q⌋ else ⌊q⌋ + 1

/-- Python's `round(x, 1)` on rationals. -/
def round1 (q : ℚ) : ℚ := (pyRound (q * 10) : ℚ) / 10

open Classical in
/-- Python's banker's rounding to an integer, on reals (used where the code
rounds fingerprint confidences and distances, which are floats). -/
noncomputable def pyRoundR (x : ℝ) : ℤ :=
  if x - ⌊x⌋ < 1 / 2 then ⌊x⌋
  else if 1 / 2 < x - ⌊x⌋ then ⌊x⌋ + 1
  else if ⌊x⌋ % 2 = 0 then ⌊x⌋ else ⌊x⌋ + 1

/-- Python's `round(x, 2)` on reals. -/
noncomputable def round2R (x : ℝ) : ℝ := (pyRoundR (x * 100) : ℝ) / 100

/-- One entry of `tracking_data["trajectory"]` (src/web_track.py lines
370-377). -/
structure TrackPoint where
  time : ℚ
  rssi : ℤ
  position : ℚ
  room : String
  method : String
  confidence : Option ℝ

/-- The mutable module-level state of src/web_track.py read and written by
`get_status`: the two smoothing buffers, the two hysteresis anchors, and
`tracking_data` (active flag, start time, trajectory, current point). -/
structure WebState where
  rssi_buffer : List ℚ
  position_buffer : List ℚ
  last_stable_position : ℚ
  last_reported_position : ℚ
  tracking_active : Bool
  start_time : ℚ
  trajectory : List TrackPoint
  current : Option TrackPoint

/-- The module-level initial state of src/web_track.py: empty buffers, both
anchors at 0, tracking inactive. -/
def webInit : WebState := ⟨[], [], 0, 0, false, 0, [], none⟩

/-- The JSON payload returned by the `/api/status` endpoint (src/web_track.py
lines 381-401), with the fields the core computes. -/
structure StatusOutput where
  rssi : ℤ
  raw_rssi : ℚ
  position : ℚ
  room : String
  direction : String
  method : String
  fp_available : Bool
  fp_location : Option String
  fp_confidence : ℝ
  fp_candidates : List (String × WithTop ℝ)
  fallback_position : ℚ
  fallback_room : String
  tracking : Bool
  trajectory_count : ℕ

open Classical in
/-- Continuation of the `get_status` endpoint body from src/web_track.py line
330 on: position smoothing, minimum-change hysteresis, fusion decision
(`fp_location and fp_confidence >= 0.75` with Python truthiness, under which
both `None` and the empty string fail), direction hysteresis, trajectory
append, and the JSON payload.  `fpRes` is the already-computed fingerprint
triple, `rbuf` the updated RSSI buffer, `smoothed_rssi` the smoothed RSSI and
`raw_pos` the freshly interpolated position. -/
noncomputable def statusRest (db : List (String × List ℚ))
    (fpRes : Option String × ℝ × List Candidate) (rbuf : List ℚ)
    (smoothed_rssi raw_pos raw_rssi now : ℚ) (s : WebState) : StatusOutput × WebState :=
  let fp_location := fpRes.1
  let fp_confidence := fpRes.2.1
  let fp_candidates := fpRes.2.2.map fun c => (c.location, c.distance.map round2R)
  let pbuf0 := s.position_buffer ++ [raw_pos]
  let pbuf := if pbuf0.length > POSITION_BUFFER_SIZE then pbuf0.tail else pbuf0
  let smoothed_pos := pbuf.sum / pbuf.length
  let rssi_pos :=
    if |smoothed_pos - s.last_reported_position| < MIN_POSITION_CHANGE
    then s.last_reported_position else smoothed_pos
  let last_reported :=
    if |smoothed_pos - s.last_reported_position| < MIN_POSITION_CHANGE
    then s.last_reported_position else smoothed_pos
  let rssi_room := get_nearest_room rssi_pos
  let fpUse : Prop :=
    (match fp_location with | some l => l ≠ "" | none => False) ∧ fp_confidence ≥ 0.75
  let final_room := if fpUse then fp_location.getD "" else rssi_room
  let final_pos := if fpUse then (lookupRoom (fp_location.getD "")).getD rssi_pos else rssi_pos
  let method := if fpUse then "fingerprint" else "rssi"
  let diff := final_pos - s.last_stable_position
  let direction :=
    if |diff| ≥ DIRECTION_THRESHOLD then (if diff > 0 then "forward" else "backward")
    else "stay"
  let last_stable := if |diff| ≥ DIRECTION_THRESHOLD then final_pos else s.last_stable_position
  let point : TrackPoint :=
    ⟨round1 (now - s.start_time), pyRound smoothed_rssi, round1 final_pos, final_room, method,
      if method = "fingerprint" then some (round2R fp_confidence) else none⟩
  let traj := if s.tracking_active then s.trajectory ++ [point] else s.trajectory
  let current := if s.tracking_active then some point else s.current
  (⟨pyRound smoothed_rssi, raw_rssi, round1 final_pos, final_room, direction, method,
    decide (3 ≤ db.length), fp_location, round2R fp_confidence, fp_candidates, round1 rssi_pos,
    rssi_room, s.tracking_active, traj.length⟩,
    ⟨rbuf, pbuf, last_stable, last_reported, s.tracking_active, s.start_time, traj, current⟩)

open Classical in
/-- Endpoint body `get_status` (src/web_track.py lines 291-401) as a pure
state transformer.  External inputs are passed explicitly: the fingerprint
store `db`, the scanned pattern `scan_pattern` (empty on a failed scan), the
raw RSSI of the interface (`-50` when WiFi is unavailable) and the current
time `now`.  `FINGERPRINT_AVAILABLE` is true (the engine imports in this
repository).  `none` models an uncaught exception (a `ZeroDivisionError`
escaping `rssi_to_position`). -/
noncomputable def get_status (db : List (String × List ℚ)) (scan_pattern : List ℚ)
    (raw_rssi : ℚ) (now : ℚ) (s : WebState) : Option (StatusOutput × WebState) :=
  let rbuf0 := s.rssi_buffer ++ [raw_rssi]
  let rbuf := if rbuf0.length > RSSI_BUFFER_SIZE then rbuf0.tail else rbuf0
  let smoothed_rssi := rbuf.sum / rbuf.length
  let fpRes :=
    if db.length ≥ 3 ∧ scan_pattern ≠ [] then estimate_location_knn db scan_pattern 3
    else (none, 0, [])
  match rssi_to_position smoothed_rssi with
  | none => none
  | some raw_pos => some (statusRest db fpRes rbuf smoothed_rssi raw_pos raw_rssi now s)

/-- The interpolation always succeeds with a non-negative position: any RSSI
matching a zero-width calibration segment is already caught by the preceding
segment, so the zero-width division is unreachable. -/
theorem rssi_to_position_some (rssi : ℚ) :
    ∃ p : ℚ, rssi_to_position rssi = some p ∧ 0 ≤ p := by
  unfold rssi_to_position calibPairs CALIBRATION
  norm_num
  simp only [interpLoop]
  by_cases h1 : (-44 : ℚ) ≤ rssi
  · rw [if_pos h1]; exact ⟨0, rfl, le_rfl⟩
  rw [if_neg h1]
  by_cases h2 : rssi ≤ (-74 : ℚ)
  · rw [if_pos h2]; exact ⟨_, rfl, by linarith⟩
  rw [if_neg h2]
  by_cases h3 : (-44 : ℚ) ≥ rssi ∧ rssi ≥ -54
  · rw [if_pos h3, if_neg (show ¬((-44 : ℚ) - -54 = 0) by norm_num)]
    refine ⟨_, rfl, ?_⟩
    obtain ⟨ha, hb⟩ := h3
    linarith
  rw [if_neg h3]
  by_cases h4 : (-54 : ℚ) ≥ rssi ∧ rssi ≥ -60
  · rw [if_pos h4, if_neg (show ¬((-54 : ℚ) - -60 = 0) by norm_num)]
    refine ⟨_, rfl, ?_⟩
    obtain ⟨ha, hb⟩ := h4
    linarith
  rw [if_neg h4]
  by_cases h5 : (-60 : ℚ) ≥ rssi ∧ rssi ≥ -65
  · rw [if_pos h5, if_neg (show ¬((-60 : ℚ) - -65 = 0) by norm_num)]
    refine ⟨_, rfl, ?_⟩
    obtain ⟨ha, hb⟩ := h5
    linarith
  rw [if_neg h5]
  by_cases h6 : (-65 : ℚ) ≥ rssi ∧ rssi ≥ -65
  · exact absurd ⟨by linarith [h6.1], h6.2⟩ h5
  rw [if_neg h6]
  by_cases h7 : (-65 : ℚ) ≥ rssi ∧ rssi ≥ -68
  · rw [if_pos h7, if_neg (show ¬((-65 : ℚ) - -68 = 0) by norm_num)]
    refine ⟨_, rfl, ?_⟩
    obtain ⟨ha, hb⟩ := h7
    linarith
  rw [if_neg h7]
  by_cases h8 : (-68 : ℚ) ≥ rssi ∧ rssi ≥ -68
  · exact absurd ⟨by linarith [h8.1], h8.2⟩ h7
  rw [if_neg h8]
  by_cases h9 : (-68 : ℚ) ≥ rssi ∧ rssi ≥ -69
  · rw [if_pos h9, if_neg (show ¬((-68 : ℚ) - -69 = 0) by norm_num)]
    refine ⟨_, rfl, ?_⟩
    obtain ⟨ha, hb⟩ := h9
    linarith
  rw [if_neg h9]
  by_cases h10 : (-69 : ℚ) ≥ rssi ∧ rssi ≥ -74
  · rw [if_pos h10, if_neg (show ¬((-69 : ℚ) - -74 = 0) by norm_num)]
    refine ⟨_, rfl, ?_⟩
    obtain ⟨ha, hb⟩ := h10
    linarith
  rw [if_neg h10]
  exact ⟨0, rfl, le_rfl⟩

/-- C9: the calibrated RSSI-to-position interpolation is a total function: for
every RSSI input (Python floats are rationals) it returns a defined, finite,
non-negative position without raising; in particular no division by zero
occurs, even though the calibration table contains consecutive entries with
repeated RSSI values forming zero-width interpolation segments. -/
theorem rssi_to_position_total (rssi : ℚ) :
    ∃ p : ℚ, rssi_to_position rssi = some p ∧ 0 ≤ p :=
  rssi_to_position_some rssi

/-- Counterexample to C1 as stated: the fused position reported by the
smoothing/fusion layer is NOT clamped to `MAP_BOUNDS`.  One `get_status` cycle
from the initial state, with an empty fingerprint store and a raw RSSI of
`-100`, reports position `91`, strictly above `MAP_BOUNDS.max_x = 75`
(the calibrated interpolation extrapolates one meter per dBm below the weakest
calibration point and no bound is ever applied). -/
theorem fused_position_out_of_bounds :
    (get_status [] [] (-100) 0 webInit).map (fun r => r.1.position) = some 91 ∧
      MAP_BOUNDS.max_x < ((91 : ℚ) : ℝ) := by
  constructor
  · simp only [get_status, statusRest, webInit]
    norm_num [rssi_to_position, calibPairs, CALIBRATION, interpLoop, get_nearest_room,
      ROOM_POSITIONS, round1, pyRound, RSSI_BUFFER_SIZE, POSITION_BUFFER_SIZE,
      MIN_POSITION_CHANGE, DIRECTION_THRESHOLD]
  · norm_num [MAP_BOUNDS]

/-- The fusion decision inside `statusRest`: the reported method is
`"fingerprint"` exactly when the fingerprint triple carries a truthy (non-`None`,
non-empty) label with confidence at least 0.75, and the reported room/position
follow the chosen branch (`ROOM_POSITIONS.get(fp_location, rssi_pos)` for the
fingerprint branch, the smoothed-and-hysteresis RSSI fallback otherwise). -/
theorem statusRest_fusion (db : List (String × List ℚ))
    (fpRes : Option String × ℝ × List Candidate) (rbuf : List ℚ)
    (smoothed_rssi raw_pos raw_rssi now : ℚ) (s : WebState) :
    ((statusRest db fpRes rbuf smoothed_rssi raw_pos raw_rssi now s).1.method = "fingerprint" ↔
      (∃ l, fpRes.1 = some l ∧ l ≠ "") ∧ fpRes.2.1 ≥ 0.75) ∧
    ((statusRest db fpRes rbuf smoothed_rssi raw_pos raw_rssi now s).1.method = "fingerprint" ∨
      (statusRest db fpRes rbuf smoothed_rssi raw_pos raw_rssi now s).1.method = "rssi") ∧
    ((statusRest db fpRes rbuf smoothed_rssi raw_pos raw_rssi now s).1.method = "fingerprint" →
      ∃ l, fpRes.1 = some l ∧
        (statusRest db fpRes rbuf smoothed_rssi raw_pos raw_rssi now s).1.room = l ∧
        ((∃ q, lookupRoom l = some q ∧
            (statusRest db fpRes rbuf smoothed_rssi raw_pos raw_rssi now s).1.position = round1 q) ∨
          (lookupRoom l = none ∧
            (statusRest db fpRes rbuf smoothed_rssi raw_pos raw_rssi now s).1.position =
              (statusRest db fpRes rbuf smoothed_rssi raw_pos raw_rssi now s).1.fallback_position))) ∧
    ((statusRest db fpRes rbuf smoothed_rssi raw_pos raw_rssi now s).1.method = "rssi" →
      (statusRest db fpRes rbuf smoothed_rssi raw_pos raw_rssi now s).1.room =
          (statusRest db fpRes rbuf smoothed_rssi raw_pos raw_rssi now s).1.fallback_room ∧
        (statusRest db fpRes rbuf smoothed_rssi raw_pos raw_rssi now s).1.position =
          (statusRest db fpRes rbuf smoothed_rssi raw_pos raw_rssi now s).1.fallback_position) := by
  unfold statusRest
  dsimp only
  by_cases hu : (match fpRes.1 with | some l => l ≠ "" | none => False) ∧ fpRes.2.1 ≥ 0.75
  · rw [if_pos hu, if_pos hu, if_pos hu]
    obtain ⟨hl, hc⟩ := hu
    cases hfl : fpRes.1 with
    | none => rw [hfl] at hl; exact absurd hl (by simp)
    | some l =>
      rw [hfl] at hl
      refine ⟨⟨fun _ => ⟨⟨l, rfl, hl⟩, hc⟩, fun _ => rfl⟩, Or.inl rfl, fun _ => ?_, ?_⟩
      · refine ⟨l, rfl, rfl, ?_⟩
        cases hlr : lookupRoom l with
        | none => exact Or.inr ⟨rfl, by rw [Option.getD_some, hlr, Option.getD_none]⟩
        | some q => exact Or.inl ⟨q, rfl, by rw [Option.getD_some, hlr, Option.getD_some]⟩
      · intro hr
        exact absurd hr (by simp)
  · rw [if_neg hu, if_neg hu, if_neg hu]
    refine ⟨⟨fun h => absurd h (by simp), fun h => ?_⟩, Or.inr rfl,
      fun h => absurd h (by simp), fun _ => ⟨rfl, rfl⟩⟩
    obtain ⟨⟨l, hfl, hl⟩, hc⟩ := h
    exact absurd ⟨by rw [hfl]; exact hl, hc⟩ hu

/-- C4 (amended): in every scan cycle `get_status` reports method
`"fingerprint"` exactly when at least `3` fingerprint records exist and the
pattern matcher, on the scanned pattern, returns a truthy (non-`None` and
non-empty, per Python truthiness) label with confidence at or above the `0.75`
threshold; in that case the fused result carries the fingerprint's label and
its configured room position (falling back to the interpolated position when
the label has no entry in `ROOM_POSITIONS`), and otherwise the method is
`"rssi"` and the fused result is the calibrated-interpolation fallback.  The
chosen method is recorded in the output. -/
theorem get_status_fusion (db : List (String × List ℚ)) (scan_pattern : List ℚ)
    (raw_rssi now : ℚ) (s : WebState) :
    ∃ out s', get_status db scan_pattern raw_rssi now s = some (out, s') ∧
      (out.method = "fingerprint" ∨ out.method = "rssi") ∧
      (out.method = "fingerprint" ↔
        3 ≤ db.length ∧
          (∃ l, (estimate_location_knn db scan_pattern 3).1 = some l ∧ l ≠ "") ∧
          (estimate_location_knn db scan_pattern 3).2.1 ≥ 0.75) ∧
      (out.method = "fingerprint" →
        ∃ l, (estimate_location_knn db scan_pattern 3).1 = some l ∧ out.room = l ∧
          ((∃ q, lookupRoom l = some q ∧ out.position = round1 q) ∨
            (lookupRoom l = none ∧ out.position = out.fallback_position))) ∧
      (out.method = "rssi" →
        out.room = out.fallback_room ∧ out.position = out.fallback_position) := by
  obtain ⟨raw_pos, hp, _⟩ := rssi_to_position_some
    ((if (s.rssi_buffer ++ [raw_rssi]).length > RSSI_BUFFER_SIZE
        then (s.rssi_buffer ++ [raw_rssi]).tail else s.rssi_buffer ++ [raw_rssi]).sum /
      ((if (s.rssi_buffer ++ [raw_rssi]).length > RSSI_BUFFER_SIZE
        then (s.rssi_buffer ++ [raw_rssi]).tail else s.rssi_buffer ++ [raw_rssi]).length : ℚ))
  simp only [get_status]
  rw [hp]
  have hfus := fun fp => statusRest_fusion db fp
    (if (s.rssi_buffer ++ [raw_rssi]).length > RSSI_BUFFER_SIZE
      then (s.rssi_buffer ++ [raw_rssi]).tail else s.rssi_buffer ++ [raw_rssi])
    ((if (s.rssi_buffer ++ [raw_rssi]).length > RSSI_BUFFER_SIZE
      then (s.rssi_buffer ++ [raw_rssi]).tail else s.rssi_buffer ++ [raw_rssi]).sum /
      ((if (s.rssi_buffer ++ [raw_rssi]).length > RSSI_BUFFER_SIZE
        then (s.rssi_buffer ++ [raw_rssi]).tail else s.rssi_buffer ++ [raw_rssi]).length : ℚ))
    raw_pos raw_rssi now s
  by_cases hcond : db.length ≥ 3 ∧ scan_pattern ≠ []
  · rw [if_pos hcond]
    refine ⟨_, _, rfl, ?_, ?_, ?_, ?_⟩
    · exact (hfus (estimate_location_knn db scan_pattern 3)).2.1
    · constructor
      · intro hm
        have h := ((hfus (estimate_location_knn db scan_pattern 3)).1).mp hm
        exact ⟨hcond.1, h.1, h.2⟩
      · rintro ⟨_, hT, hC⟩
        exact ((hfus (estimate_location_knn db scan_pattern 3)).1).mpr ⟨hT, hC⟩
    · exact (hfus (estimate_location_knn db scan_pattern 3)).2.2.1
    · exact (hfus (estimate_location_knn db scan_pattern 3)).2.2.2
  · rw [if_neg hcond]
    refine ⟨_, _, rfl, ?_, ?_, ?_, ?_⟩
    · exact (hfus ((none : Option String), (0 : ℝ), ([] : List Candidate))).2.1
    · constructor
      · intro hm
        have h := ((hfus ((none : Option String), (0 : ℝ), ([] : List Candidate))).1).mp hm
        exact absurd h (by simp)
      · rintro ⟨hlen, ⟨l, hl, hlne⟩, hc⟩
        exfalso
        rcases not_and_or.mp hcond with h | h
        · exact h hlen
        · have hscan : scan_pattern = [] := not_not.mp h
          rw [hscan] at hl
          unfold estimate_location_knn at hl
          rw [if_pos (Or.inr rfl)] at hl
          simp at hl
    · intro hm
      have h := ((hfus ((none : Option String), (0 : ℝ), ([] : List Candidate))).1).mp hm
      exact absurd h (by simp)
    · exact (hfus ((none : Option String), (0 : ℝ), ([] : List Candidate))).2.2.2

/-- Counterexample to C4 as stated: with the three-record store
`{"": [-50], "B": [-70], "C": [-90]}` and scanned pattern `[-50]`, the pattern
matcher returns confidence 0.95 (at or above the 0.75 threshold) and at least
3 records exist, yet the fused result does not use the fingerprint: the
matched label is the empty string, which is falsy in Python, so
`if fp_location and fp_confidence >= 0.75` fails and the reported method is
`"rssi"`. -/
theorem get_status_fusion_cex :
    3 ≤ ([("", [(-50 : ℚ)]), ("B", [-70]), ("C", [-90])] : List (String × List ℚ)).length ∧
      (estimate_location_knn [("", [(-50 : ℚ)]), ("B", [-70]), ("C", [-90])]
        [(-50 : ℚ)] 3).2.1 = 0.95 ∧
      (get_status [("", [(-50 : ℚ)]), ("B", [-70]), ("C", [-90])] [(-50 : ℚ)] (-50) 0
        webInit).map (fun r => r.1.method) = some "rssi" := by
  have h1 : euclidean_distance [(-50 : ℚ)] [(-50 : ℚ)] = ((0 : ℝ) : WithTop ℝ) := by
    unfold euclidean_distance
    rw [if_neg (by simp)]
    norm_num
  have h2 : euclidean_distance [(-50 : ℚ)] [(-70 : ℚ)] = ((20 : ℝ) : WithTop ℝ) := by
    unfold euclidean_distance
    rw [if_neg (by simp)]
    norm_num
    rw [show (400 : ℝ) = 20 ^ 2 by norm_num, Real.sqrt_sq (by norm_num : (0 : ℝ) ≤ 20)]
  have h3 : euclidean_distance [(-50 : ℚ)] [(-90 : ℚ)] = ((40 : ℝ) : WithTop ℝ) := by
    unfold euclidean_distance
    rw [if_neg (by simp)]
    norm_num
    rw [show (1600 : ℝ) = 40 ^ 2 by norm_num, Real.sqrt_sq (by norm_num : (0 : ℝ) ≤ 40)]
  have hknn : (estimate_location_knn [("", [(-50 : ℚ)]), ("B", [-70]), ("C", [-90])]
        [(-50 : ℚ)] 3).1 = some "" ∧
      (estimate_location_knn [("", [(-50 : ℚ)]), ("B", [-70]), ("C", [-90])]
        [(-50 : ℚ)] 3).2.1 = 0.95 := by
    unfold estimate_location_knn
    rw [if_neg (by simp)]
    simp only [List.map_cons, List.map_nil, h1, h2, h3, List.insertionSort, List.orderedInsert,
      candLE]
    rw [if_pos (WithTop.coe_le_coe.mpr (by norm_num : (20 : ℝ) ≤ 40))]
    simp only [List.orderedInsert, candLE]
    rw [if_pos (WithTop.coe_le_coe.mpr (by norm_num : (0 : ℝ) ≤ 20))]
    rw [List.take_of_length_le (by simp)]
    simp only [knn_confidence]
    rw [if_pos (WithTop.coe_lt_coe.mpr (by norm_num : (0 : ℝ) < 5))]
    simp
  refine ⟨by norm_num, hknn.2, ?_⟩
  simp only [get_status, statusRest, webInit]
  norm_num [rssi_to_position, calibPairs, CALIBRATION, interpLoop, hknn.1,
    RSSI_BUFFER_SIZE, POSITION_BUFFER_SIZE, MIN_POSITION_CHANGE, DIRECTION_THRESHOLD]

/-! ### Object-level model of `get_trajectory` (src/position_estimator.py
lines 175-177)

The claim about `get_trajectory` concerns Python object identity: the method
returns `self.position_history.copy()`, a fresh list object, so in-place
mutation of the returned list cannot reach the estimator's own list.  To state
this, Python list objects are modelled as references (indices) into a heap of
lists, `.copy()` as a fresh allocation carrying the same contents, and
in-place mutation as overwriting the contents at a reference. -/

/-- Read the list object behind reference `r` (out-of-range reads never occur
for valid references). -/
def heapRead (h : List (List (ℝ × ℝ × ℝ))) (r : ℕ) : List (ℝ × ℝ × ℝ) := h.getD r []

/-- Overwrite the list object behind reference `r` (an in-place mutation such
as `append`, `clear` or slice assignment performed by the caller). -/
def heapWrite (h : List (List (ℝ × ℝ × ℝ))) (r : ℕ) (v : List (ℝ × ℝ × ℝ)) :
    List (List (ℝ × ℝ × ℝ)) := h.set r v

/-- Allocate a fresh list object with contents `v`, returning its reference. -/
def heapAlloc (h : List (List (ℝ × ℝ × ℝ))) (v : List (ℝ × ℝ × ℝ)) :
    ℕ × List (List (ℝ × ℝ × ℝ)) := (h.length, h ++ [v])

/-- A `PositionEstimator` object at the reference level: `position_history` is
a reference to a heap-allocated list. -/
structure EstimatorObj where
  method : String
  last_position : Option (ℝ × ℝ)
  history_ref : ℕ

/-- Method `PositionEstimator.get_trajectory` (src/position_estimator.py lines
175-177): `return self.position_history.copy()` — allocate a fresh list with
the same contents and return its reference; the estimator itself is untouched. -/
def get_trajectory (e : EstimatorObj) (h : List (List (ℝ × ℝ × ℝ))) :
    EstimatorObj × ℕ × List (List (ℝ × ℝ × ℝ)) :=
  let alloc := heapAlloc h (heapRead h e.history_ref)
  (e, alloc.1, alloc.2)

/-- C10: `get_trajectory` returns a copy of the internal position history:
the returned reference is a fresh object distinct from the estimator's own
`position_history`, it carries the same contents, the estimator object is
returned unchanged, and overwriting the returned object with ANY contents
leaves the estimator's stored history (and every other object in the heap)
exactly as before. -/
theorem get_trajectory_copy (e : EstimatorObj) (h : List (List (ℝ × ℝ × ℝ)))
    (hvalid : e.history_ref < h.length) :
    (get_trajectory e h).1 = e ∧
      (get_trajectory e h).2.1 ≠ e.history_ref ∧
      heapRead (get_trajectory e h).2.2 (get_trajectory e h).2.1 = heapRead h e.history_ref ∧
      ∀ v r, r < h.length →
        heapRead (heapWrite (get_trajectory e h).2.2 (get_trajectory e h).2.1 v) r =
          heapRead h r := by
  simp only [get_trajectory, heapAlloc, heapRead, heapWrite]
  refine ⟨trivial, by omega, ?_, ?_⟩
  · exact List.getD_append_right h [h.getD e.history_ref []] _ _ le_rfl ▸ by
      simp [List.getD_append_right, List.getD]
  · intro v r hr
    have hset : (h ++ [h.getD e.history_ref []]).set h.length v = h ++ [v] := by
      rw [List.set_append_right _ _ (le_refl h.length)]
      simp
    rw [hset]
    exact List.getD_append _ _ _ _ hr

/-- Witness for C10 at a concrete one-object heap. -/
theorem get_trajectory_copy_witness :
    (⟨"weighted_centroid", none, 0⟩ : EstimatorObj).history_ref <
        ([[((1 : ℝ), (2 : ℝ), (3 : ℝ))]] : List (List (ℝ × ℝ × ℝ))).length ∧
      (get_trajectory ⟨"weighted_centroid", none, 0⟩ [[((1 : ℝ), (2 : ℝ), (3 : ℝ))]]).2.1 ≠
        (⟨"weighted_centroid", none, 0⟩ : EstimatorObj).history_ref :=
  ⟨by norm_num,
    (get_trajectory_copy ⟨"weighted_centroid", none, 0⟩ [[((1 : ℝ), (2 : ℝ), (3 : ℝ))]]
      (by norm_num)).2.1⟩

end IndoorTrack
